import Mathlib

/-!
Shallow embedding of `src/packages/medusa/src/api/routes/store/customers/list-orders.ts`:
the store endpoint `GET /customers/me/orders`.  The handler validates the query string
against `StoreGetCustomersCustomerOrdersParams`, force-injects the authenticated
customer id, sanitizes `fields`/`expand` against static allow-lists, builds a list
config and a filter map (`_.omit` of the control keys followed by `_.pickBy` with
`identity`), calls `orderService.listAndCount`, and answers with
`{ orders, count, offset, limit }`.

JavaScript objects are modelled as association lists `List (String × FilterValue)`
whose lookup mirrors property access; JavaScript truthiness is the `truthy` predicate;
numbers are `Rat` (the handler never requires integrality).  Parts of the repository
that are imported by the route but not present in the provided sources (the `validator`
utility, the status enums, the allow-lists, `DateComparisonOperator`) are modelled from
the specification and carry a doc comment saying so.
-/

namespace ListOrders

/-- Modelled from the spec: `DateComparisonOperator` (from `types/common`, not in the
provided sources) is "a range descriptor (e.g. less-than/greater-than/equal bounds)
applied to a timestamp field"; timestamps are abstracted as integers. -/
structure DateComparisonOperator where
  lt : Option Int := none
  gt : Option Int := none
  lte : Option Int := none
  gte : Option Int := none
  eq : Option Int := none
deriving Repr, DecidableEq

/-- A JavaScript value that can appear as a property of the validated parameter
object: a string, a (finite) number, an array of strings, or a nested
date-comparison object. -/
inductive FilterValue where
  | str (s : String)
  | num (q : Rat)
  | strList (l : List String)
  | dateCmp (d : DateComparisonOperator)
deriving Repr, DecidableEq

/-- A raw query-string value after the framework's parsing and the
`class-transformer` coercions declared on the parameter class: strings stay strings,
`@Type(() => Number)` fields become a number or `nan` when coercion fails,
repeated keys become string arrays, and bracketed keys become nested objects
(operator name to abstract timestamp). -/
inductive RawField where
  | str (s : String)
  | num (q : Rat)
  | nan
  | strList (l : List String)
  | dateObj (entries : List (String × Int))
deriving Repr, DecidableEq

/-- The validated parameter object, keyed by property name. -/
abbrev ValidatedMap := List (String × FilterValue)

/-- A raw query object, keyed by query-string parameter name. -/
abbrev RawQuery := List (String × RawField)

/-- Modelled from the spec: the fixed `OrderStatus` enumeration (from
`models/order`, not in the provided sources); "enum fields validated against fixed
status enumerations". -/
def orderStatusValues : List String :=
  ["pending", "completed", "archived", "canceled", "requires_action"]

/-- Modelled from the spec: the fixed `FulfillmentStatus` enumeration (from
`models/order`, not in the provided sources). -/
def fulfillmentStatusValues : List String :=
  ["not_fulfilled", "partially_fulfilled", "fulfilled", "partially_shipped",
   "shipped", "partially_returned", "returned", "canceled", "requires_action"]

/-- Modelled from the spec: the fixed `PaymentStatus` enumeration (from
`models/order`, not in the provided sources). -/
def paymentStatusValues : List String :=
  ["not_paid", "awaiting", "captured", "partially_refunded", "refunded",
   "canceled", "requires_action"]

/-- Modelled from the spec: `allowedStoreOrdersFields` (imported from `../orders`,
not in the provided sources) is a "static allow-list" of selectable order fields;
the members are representative, every claim holds for any fixed list. -/
def allowedStoreOrdersFields : List String :=
  ["id", "status", "fulfillment_status", "payment_status", "display_id",
   "cart_id", "email", "region_id", "currency_code", "tax_rate", "created_at",
   "updated_at", "canceled_at", "total", "subtotal", "tax_total",
   "shipping_total", "discount_total", "gift_card_total", "refunded_total"]

/-- Modelled from the spec: `allowedStoreOrdersRelations` (imported from
`../orders`, not in the provided sources) is a "static allow-list" of expandable
order relations; the members are representative. -/
def allowedStoreOrdersRelations : List String :=
  ["customer", "region", "items", "discounts", "gift_cards", "payments",
   "fulfillments", "shipping_address", "billing_address", "shipping_methods"]

/-- Builds a `DateComparisonOperator` from a raw nested object, reading the
recognised comparison operators and ignoring unknown nested keys. -/
def toDateCmp (entries : List (String × Int)) : DateComparisonOperator :=
  { lt := entries.lookup "lt", gt := entries.lookup "gt",
    lte := entries.lookup "lte", gte := entries.lookup "gte",
    eq := entries.lookup "eq" }

/-- The validation rule a declared parameter carries, read off the decorators of
`StoreGetCustomersCustomerOrdersParams`: `@IsNumber`, `@IsString`,
`@IsEnum(E, \x7b each: true \x7d)`, or `@ValidateNested` with
`@Type(() => DateComparisonOperator)`. -/
inductive FieldRule where
  | number
  | string
  | enumList (allowed : List String)
  | dateCompare
deriving Repr, DecidableEq

/-- The rule attached to each declared property of
`StoreGetCustomersCustomerOrdersParams` (including the inherited pagination
class), in source declaration order; `none` for undeclared keys. -/
def fieldRule : String → Option FieldRule
  | "limit" => some .number
  | "offset" => some .number
  | "fields" => some .string
  | "expand" => some .string
  | "id" => some .string
  | "q" => some .string
  | "status" => some (.enumList orderStatusValues)
  | "fulfillment_status" => some (.enumList fulfillmentStatusValues)
  | "payment_status" => some (.enumList paymentStatusValues)
  | "display_id" => some .string
  | "cart_id" => some .string
  | "email" => some .string
  | "region_id" => some .string
  | "currency_code" => some .string
  | "tax_rate" => some .string
  | "created_at" => some .dateCompare
  | "updated_at" => some .dateCompare
  | "canceled_at" => some .dateCompare
  | _ => none

/-- The declared property names of `StoreGetCustomersCustomerOrdersParams`, in
declaration order (pagination base class first). -/
def declaredKeys : List String :=
  ["limit", "offset", "fields", "expand", "id", "q", "status",
   "fulfillment_status", "payment_status", "display_id", "cart_id", "email",
   "region_id", "currency_code", "tax_rate", "created_at", "updated_at",
   "canceled_at"]

/-- Applies one declared rule to one raw value, yielding the validated value or
`none` on a validation failure (wrong type, non-number after coercion, or an
enum-list member outside the enumeration). -/
def applyRule : FieldRule → RawField → Option FilterValue
  | .number, .num q => some (.num q)
  | .string, .str s => some (.str s)
  | .enumList allowed, .strList l =>
      if l.all (fun x => allowed.contains x) then some (.strList l) else none
  | .dateCompare, .dateObj entries => some (.dateCmp (toDateCmp entries))
  | _, _ => none

/-- The class initializers of `StoreGetCustomersCustomerOrdersPaginationParams`:
`limit = 10` and `offset = 0`; every other property has no default. -/
def defaultValue : String → Option FilterValue
  | "limit" => some (.num 10)
  | "offset" => some (.num 0)
  | _ => none

/-- Whether validation of the declared key `k` fails on this query: the key was
supplied, carries a rule, and the rule rejects the supplied value. -/
def fieldError (query : RawQuery) (k : String) : Bool :=
  match query.lookup k, fieldRule k with
  | some v, some r => (applyRule r v).isNone
  | _, _ => false

/-- The validated entry produced for the declared key `k`: the rule applied to
the supplied value when present, otherwise the class-initializer default when
one exists. -/
def fieldResult (query : RawQuery) (k : String) : Option (String × FilterValue) :=
  match query.lookup k, fieldRule k with
  | some v, some r => (applyRule r v).map fun fv => (k, fv)
  | none, _ => (defaultValue k).map fun fv => (k, fv)
  | some _, none => none

/-- Modelled from the spec: the `validator` utility (from `utils/validator`, not in
the provided sources) "validates and coerces the raw query parameters against the
declared schema" and raises a `ValidationError` "listing the offending fields if any
field violates its type/enum constraint", in which case "request processing halts
before any data access"; per the spec only type, enum-membership and nested-shape
checks fail, so keys outside the declared schema are stripped rather than
rejected. -/
def validator (query : RawQuery) : Except (List String) ValidatedMap :=
  if (declaredKeys.filter (fieldError query)).isEmpty then
    Except.ok (declaredKeys.filterMap (fieldResult query))
  else Except.error (declaredKeys.filter (fieldError query))

/-- JavaScript truthiness of a validated value: the empty string and the number
zero are falsy, arrays and objects are always truthy (NaN cannot occur, `@IsNumber`
rejects it). -/
def truthy : FilterValue → Bool
  | .str s => s != ""
  | .num q => q != 0
  | .strList _ => true
  | .dateCmp _ => true

/-- JavaScript property assignment `validated["customer_id"] = id`: the key is
bound to exactly this value afterwards. -/
def setKey (m : ValidatedMap) (k : String) (v : FilterValue) : ValidatedMap :=
  (k, v) :: m.filter fun kv => kv.1 != k

/-- Lodash `_.omit`: drop the listed keys. -/
def omitKeys (m : ValidatedMap) (ks : List String) : ValidatedMap :=
  m.filter fun kv => !(ks.contains kv.1)

/-- Lodash `_.pickBy(m, identity)`: keep only the truthy-valued properties. -/
def pickBy (m : ValidatedMap) : ValidatedMap :=
  m.filter fun kv => truthy kv.2

/-- Reads a numeric property (as `validated.offset` / `validated.limit` do). -/
def getNum (m : ValidatedMap) (k : String) : Rat :=
  match m.lookup k with
  | some (.num q) => q
  | _ => 0

/-- Reads a string property (as `validated.fields` / `validated.expand` do). -/
def getStr (m : ValidatedMap) (k : String) : Option String :=
  match m.lookup k with
  | some (.str s) => some s
  | _ => none

/-- JavaScript `s.split(",")` over the characters of `s`: the split used by the
handler has the fixed one-character separator, so it is embedded by structural
recursion on the character list (matching the JavaScript semantics, including
`"".split(",") = [""]` and trailing empty pieces). -/
def splitCommaChars : List Char → List String
  | [] => [""]
  | c :: cs =>
    if c = ',' then "" :: splitCommaChars cs
    else
      match splitCommaChars cs with
      | [] => [String.mk [c]]
      | t :: ts => String.mk (c :: t.toList) :: ts

/-- JavaScript `s.split(",")`. -/
def splitComma (s : String) : List String := splitCommaChars s.toList

/-- The `includeFields` / `expandFields` computation: when the property is a
truthy (non-empty) string, split it on commas and keep the allow-listed entries,
otherwise the empty list. -/
def sanitizeList (raw : Option String) (allowed : List String) : List String :=
  match raw with
  | some s => if s = "" then [] else (splitComma s).filter fun f => allowed.contains f
  | none => []

/-- The `listConfig` object built by the handler. -/
structure ListConfig where
  select : List String
  relations : List String
  skip : Rat
  take : Rat
  order : List (String × String)
deriving Repr, DecidableEq

/-- The pair of arguments the handler passes to `orderService.listAndCount`. -/
structure ServiceCall where
  filter : ValidatedMap
  config : ListConfig
deriving Repr, DecidableEq

/-- The JSON body produced by `res.json`. -/
structure Response (α : Type) where
  orders : List α
  count : Nat
  offset : Rat
  limit : Rat
deriving Repr, DecidableEq

/-- The validated object after the handler's line
`validated["customer_id"] = id`. -/
def validatedOf (cid : String) (v0 : ValidatedMap) : ValidatedMap :=
  setKey v0 "customer_id" (.str cid)

/-- The `listConfig` literal of the handler: sanitized fields or the full
allow-list, sanitized relations or the full allow-list, `skip = validated.offset`,
`take = validated.limit`, and the fixed order `created_at: DESC`. -/
def listConfigOf (validated : ValidatedMap) : ListConfig :=
  let includeFields := sanitizeList (getStr validated "fields") allowedStoreOrdersFields
  let expandFields := sanitizeList (getStr validated "expand") allowedStoreOrdersRelations
  { select := if includeFields.isEmpty then allowedStoreOrdersFields else includeFields,
    relations := if expandFields.isEmpty then allowedStoreOrdersRelations else expandFields,
    skip := getNum validated "offset",
    take := getNum validated "limit",
    order := [("created_at", "DESC")] }

/-- The arguments of the `orderService.listAndCount` call:
`_.pickBy(_.omit(validated, ["limit", "offset", "expand", "fields"]), identity)`
together with the list config. -/
def serviceCallOf (cid : String) (v0 : ValidatedMap) : ServiceCall :=
  let validated := validatedOf cid v0
  { filter := pickBy (omitKeys validated ["limit", "offset", "expand", "fields"]),
    config := listConfigOf validated }

/-- The route handler: validate the query, inject the authenticated customer id,
build the filter map and list config, call `listAndCount`, and emit
`{ orders, count, offset: validated.offset, limit: validated.limit }`.  The
service is passed as a function so the call made to it is observable; a
validation failure propagates as `Except.error` before the service is ever
consulted. -/
def handleRequest {α : Type} (cid : String) (query : RawQuery)
    (listAndCount : ValidatedMap → ListConfig → List α × Nat) :
    Except (List String) (ServiceCall × Response α) :=
  match validator query with
  | .error errs => .error errs
  | .ok v0 =>
    let call := serviceCallOf cid v0
    let result := listAndCount call.filter call.config
    .ok (call,
      { orders := result.1, count := result.2,
        offset := getNum (validatedOf cid v0) "offset",
        limit := getNum (validatedOf cid v0) "limit" })

/-- A trivial order service used to instantiate witnesses. -/
def unitSvc : ValidatedMap → ListConfig → List Unit × Nat := fun _ _ => ([], 0)

end ListOrders

namespace ListOrders

/-- Lookup of a key with no surviving entry: filtering preserves absence. -/
theorem lookup_filter_none (m : ValidatedMap) (p : String × FilterValue → Bool) (k : String)
    (h : m.lookup k = none) : (m.filter p).lookup k = none := by
  induction m with
  | nil => rfl
  | cons a t ih =>
    rcases a with ⟨ka, va⟩
    rw [List.filter_cons]
    by_cases hk : k = ka
    · subst hk; simp [List.lookup_cons] at h
    · have ht : t.lookup k = none := by
        simpa [List.lookup_cons, beq_false_of_ne hk] using h
      by_cases hp : p (ka, va)
      · simp only [hp, if_true]
        simp [List.lookup_cons, beq_false_of_ne hk, ih ht]
      · simp only [hp, if_false, Bool.false_eq_true]
        exact ih ht

/-- Lookup after a filter that rejects every value at key `k` yields nothing. -/
theorem lookup_filter_drops (m : ValidatedMap) (p : String × FilterValue → Bool) (k : String)
    (hp : ∀ v, p (k, v) = false) : (m.filter p).lookup k = none := by
  induction m with
  | nil => rfl
  | cons a t ih =>
    rcases a with ⟨ka, va⟩
    rw [List.filter_cons]
    by_cases hk : k = ka
    · subst hk
      simp only [hp va, if_false, Bool.false_eq_true]
      exact ih
    · by_cases hpa : p (ka, va)
      · simp only [hpa, if_true]
        simp [List.lookup_cons, beq_false_of_ne hk, ih]
      · simp only [hpa, if_false, Bool.false_eq_true]
        exact ih

/-- Lookup after a filter that keeps every value at key `k` is unchanged. -/
theorem lookup_filter_keeps (m : ValidatedMap) (p : String × FilterValue → Bool) (k : String)
    (hp : ∀ v, p (k, v) = true) : (m.filter p).lookup k = m.lookup k := by
  induction m with
  | nil => rfl
  | cons a t ih =>
    rcases a with ⟨ka, va⟩
    rw [List.filter_cons]
    by_cases hk : k = ka
    · subst hk
      simp only [hp va, if_true]
      simp [List.lookup_cons]
    · by_cases hpa : p (ka, va)
      · simp only [hpa, if_true]
        simp [List.lookup_cons, beq_false_of_ne hk, ih]
      · simp only [hpa, if_false, Bool.false_eq_true]
        rw [ih]
        simp [List.lookup_cons, beq_false_of_ne hk]

/-- A value found after filtering satisfies the filter predicate. -/
theorem lookup_filter_some (m : ValidatedMap) (p : String × FilterValue → Bool) (k : String)
    (v : FilterValue) (h : (m.filter p).lookup k = some v) : p (k, v) = true := by
  induction m with
  | nil => simp at h
  | cons a t ih =>
    rcases a with ⟨ka, va⟩
    rw [List.filter_cons] at h
    by_cases hpa : p (ka, va)
    · simp only [hpa, if_true] at h
      rw [List.lookup_cons] at h
      by_cases hk : k = ka
      · subst hk
        simp at h
        subst h
        exact hpa
      · simp only [beq_false_of_ne hk] at h
        exact ih h
    · simp only [hpa, if_false, Bool.false_eq_true] at h
      exact ih h

/-- The first binding of a key survives a filter that accepts it. -/
theorem lookup_filter_of_lookup (m : ValidatedMap) (p : String × FilterValue → Bool) (k : String)
    (v : FilterValue) (h : m.lookup k = some v) (hp : p (k, v) = true) :
    (m.filter p).lookup k = some v := by
  induction m with
  | nil => simp at h
  | cons a t ih =>
    rcases a with ⟨ka, va⟩
    rw [List.lookup_cons] at h
    rw [List.filter_cons]
    by_cases hk : k = ka
    · subst hk
      simp at h
      subst h
      simp only [hp, if_true]
      simp [List.lookup_cons]
    · simp only [beq_false_of_ne hk] at h
      by_cases hpa : p (ka, va)
      · simp only [hpa, if_true]
        simp [List.lookup_cons, beq_false_of_ne hk, ih h]
      · simp only [hpa, if_false, Bool.false_eq_true]
        exact ih h

/-- Removing a key leaves no binding for it. -/
theorem lookup_removeKey (m : ValidatedMap) (k : String) :
    (m.filter fun kv => kv.1 != k).lookup k = none :=
  lookup_filter_drops m _ k (fun v => by simp)

/-- Every entry `fieldResult` produces is keyed by the declared name it was
produced for. -/
theorem fieldResult_key (query : RawQuery) (a : String) (kv : String × FilterValue)
    (h : fieldResult query a = some kv) : kv.1 = a := by
  unfold fieldResult at h
  split at h
  · rcases Option.map_eq_some'.mp h with ⟨fv, _, hkv⟩
    rw [← hkv]
  · rcases Option.map_eq_some'.mp h with ⟨fv, _, hkv⟩
    rw [← hkv]
  · exact absurd h (by simp)

/-- A key outside the generating list is absent from the generated map. -/
theorem lookup_filterMap_not_mem (l : List String) (f : String → Option (String × FilterValue))
    (hf : ∀ a kv, f a = some kv → kv.1 = a) (k : String) (hk : ¬ k ∈ l) :
    (l.filterMap f).lookup k = none := by
  induction l with
  | nil => rfl
  | cons a t ih =>
    have hka : k ≠ a := fun h => hk (h ▸ List.mem_cons_self a t)
    have hkt : ¬ k ∈ t := fun h => hk (List.mem_cons_of_mem a h)
    rw [List.filterMap_cons]
    cases hfa : f a with
    | none => exact ih hkt
    | some kv =>
      have hkv := hf a kv hfa
      rcases kv with ⟨kk, vv⟩
      simp only at hkv
      subst hkv
      simp [List.lookup_cons, beq_false_of_ne hka, ih hkt]

/-- On a duplicate-free generating list, lookup in the generated map reads off
the generator at that key. -/
theorem lookup_filterMap_nodup (l : List String) (f : String → Option (String × FilterValue))
    (hf : ∀ a kv, f a = some kv → kv.1 = a) (hl : l.Nodup) (k : String) (hk : k ∈ l) :
    (l.filterMap f).lookup k = (f k).map Prod.snd := by
  induction l with
  | nil => simp at hk
  | cons a t ih =>
    rw [List.filterMap_cons]
    rcases List.mem_cons.mp hk with rfl | hkt
    · have hknott : ¬ k ∈ t := (List.nodup_cons.mp hl).1
      cases hfk : f k with
      | none =>
        rw [lookup_filterMap_not_mem t f hf k hknott]
        simp
      | some kv =>
        have hkv := hf k kv hfk
        rcases kv with ⟨kk, vv⟩
        simp only at hkv
        subst hkv
        simp [List.lookup_cons]
    · have hne : k ≠ a := fun h => (List.nodup_cons.mp hl).1 (h ▸ hkt)
      cases hfa : f a with
      | none => exact ih (List.nodup_cons.mp hl).2 hkt
      | some kv =>
        have hkv := hf a kv hfa
        rcases kv with ⟨kk, vv⟩
        simp only at hkv
        subst hkv
        simp [List.lookup_cons, beq_false_of_ne hne, ih (List.nodup_cons.mp hl).2 hkt]

/-- Inversion of a successful validation: the validated object is the schema
walk over the declared keys. -/
theorem validator_ok_eq (query : RawQuery) (v0 : ValidatedMap)
    (h : validator query = .ok v0) :
    v0 = declaredKeys.filterMap (fieldResult query) := by
  unfold validator at h
  split at h
  · exact ((Except.ok.injEq _ _).mp h).symm
  · exact absurd h (by simp)

/-- Lookup of a declared key in the validated object reads off the schema walk. -/
theorem validator_ok_lookup (query : RawQuery) (v0 : ValidatedMap)
    (h : validator query = .ok v0) (k : String) (hk : k ∈ declaredKeys) :
    v0.lookup k = (fieldResult query k).map Prod.snd := by
  rw [validator_ok_eq query v0 h]
  exact lookup_filterMap_nodup declaredKeys (fieldResult query) (fieldResult_key query)
    (by decide) k hk

/-- The validated object binds only declared keys. -/
theorem validator_ok_lookup_undeclared (query : RawQuery) (v0 : ValidatedMap)
    (h : validator query = .ok v0) (k : String) (hk : ¬ k ∈ declaredKeys) :
    v0.lookup k = none := by
  rw [validator_ok_eq query v0 h]
  exact lookup_filterMap_not_mem declaredKeys (fieldResult query) (fieldResult_key query) k hk

/-- Shape of the handler on a successfully validated query. -/
theorem handleRequest_ok {α : Type} (cid : String) (query : RawQuery)
    (svc : ValidatedMap → ListConfig → List α × Nat) (v0 : ValidatedMap)
    (hv : validator query = .ok v0) :
    handleRequest cid query svc =
      .ok (serviceCallOf cid v0,
        { orders := (svc (serviceCallOf cid v0).filter (serviceCallOf cid v0).config).1,
          count := (svc (serviceCallOf cid v0).filter (serviceCallOf cid v0).config).2,
          offset := getNum (validatedOf cid v0) "offset",
          limit := getNum (validatedOf cid v0) "limit" }) := by
  unfold handleRequest
  rw [hv]

/-- Shape of the handler on a failed validation. -/
theorem handleRequest_error {α : Type} (cid : String) (query : RawQuery)
    (svc : ValidatedMap → ListConfig → List α × Nat) (errs : List String)
    (hv : validator query = .error errs) :
    handleRequest cid query svc = .error errs := by
  unfold handleRequest
  rw [hv]

/-- Inversion of a successful handler run. -/
theorem handleRequest_ok_inv {α : Type} (cid : String) (query : RawQuery)
    (svc : ValidatedMap → ListConfig → List α × Nat) (v0 : ValidatedMap)
    (call : ServiceCall) (resp : Response α)
    (hv : validator query = .ok v0)
    (h : handleRequest cid query svc = .ok (call, resp)) :
    call = serviceCallOf cid v0 ∧
      resp = { orders := (svc call.filter call.config).1,
               count := (svc call.filter call.config).2,
               offset := getNum (validatedOf cid v0) "offset",
               limit := getNum (validatedOf cid v0) "limit" } := by
  rw [handleRequest_ok cid query svc v0 hv] at h
  simp only [Except.ok.injEq, Prod.mk.injEq] at h
  obtain ⟨hc, hr⟩ := h
  subst hc
  exact ⟨rfl, hr.symm⟩

/-- The assignment binds `customer_id` to the session id. -/
theorem lookup_validatedOf_self (cid : String) (v0 : ValidatedMap) :
    (validatedOf cid v0).lookup "customer_id" = some (.str cid) := by
  simp [validatedOf, setKey, List.lookup_cons]

/-- The assignment leaves every other property unchanged. -/
theorem lookup_validatedOf_ne (cid : String) (v0 : ValidatedMap) (k : String)
    (hk : k ≠ "customer_id") :
    (validatedOf cid v0).lookup k = v0.lookup k := by
  unfold validatedOf setKey
  rw [List.lookup_cons]
  simp only [beq_false_of_ne hk]
  exact lookup_filter_keeps v0 _ k (fun v => by simp [hk])

/-- The four control keys `_.omit` removes. -/
def controlKeys : List String := ["limit", "offset", "expand", "fields"]

/-- The filter map passed to the service never binds a control key. -/
theorem serviceCall_lookup_control (cid : String) (v0 : ValidatedMap) (k : String)
    (hk : k ∈ controlKeys) : (serviceCallOf cid v0).filter.lookup k = none := by
  unfold serviceCallOf pickBy omitKeys
  apply lookup_filter_none
  apply lookup_filter_drops
  intro v
  simp only [controlKeys, List.mem_cons] at hk
  rcases hk with rfl | rfl | rfl | rfl | h
  · rfl
  · rfl
  · rfl
  · rfl
  · simp at h

/-- Every binding of the filter map passed to the service is truthy. -/
theorem serviceCall_lookup_truthy (cid : String) (v0 : ValidatedMap) (k : String)
    (v : FilterValue) (h : (serviceCallOf cid v0).filter.lookup k = some v) :
    truthy v = true := by
  unfold serviceCallOf pickBy omitKeys at h
  exact lookup_filter_some _ _ _ _ h

/-- A truthy non-control binding of the validated object reaches the service
filter unchanged. -/
theorem serviceCall_lookup_of (cid : String) (v0 : ValidatedMap) (k : String)
    (v : FilterValue) (hk : ¬ k ∈ controlKeys)
    (hlv : (validatedOf cid v0).lookup k = some v) (htv : truthy v = true) :
    (serviceCallOf cid v0).filter.lookup k = some v := by
  unfold serviceCallOf pickBy omitKeys
  apply lookup_filter_of_lookup
  · apply lookup_filter_of_lookup _ _ _ _ hlv
    show (!(["limit", "offset", "expand", "fields"].contains k)) = true
    have hcf : ["limit", "offset", "expand", "fields"].contains k = false := by
      cases hcont : ["limit", "offset", "expand", "fields"].contains k with
      | false => rfl
      | true => exact absurd (by simpa [controlKeys] using List.mem_of_elem_eq_true hcont) hk
    rw [hcf]
    rfl
  · exact htv

/-- An absent property of the validated object is absent from the service
filter. -/
theorem serviceCall_lookup_none (cid : String) (v0 : ValidatedMap) (k : String)
    (h : (validatedOf cid v0).lookup k = none) :
    (serviceCallOf cid v0).filter.lookup k = none := by
  unfold serviceCallOf pickBy omitKeys
  exact lookup_filter_none _ _ _ (lookup_filter_none _ _ _ h)

/-- The `customer_id` binding of the service filter: the session id when it is
truthy, removed by `_.pickBy` when it is the empty string. -/
theorem serviceCall_lookup_customer (cid : String) (v0 : ValidatedMap) :
    (serviceCallOf cid v0).filter.lookup "customer_id" =
      if cid = "" then none else some (.str cid) := by
  simp only [serviceCallOf, pickBy, omitKeys, validatedOf, setKey]
  rw [List.filter_cons]
  rw [if_pos (show (!(["limit", "offset", "expand", "fields"].contains "customer_id")) = true from rfl)]
  rw [List.filter_cons]
  by_cases hc : cid = ""
  · subst hc
    rw [if_neg (show ¬ (truthy (.str "") = true) by decide)]
    rw [if_pos rfl]
    exact lookup_filter_none _ _ _ (lookup_filter_none _ _ _ (lookup_removeKey v0 "customer_id"))
  · rw [if_pos (show truthy (.str cid) = true by simp [truthy, hc])]
    rw [if_neg hc]
    simp [List.lookup_cons]

end ListOrders

namespace ListOrders

/-- Reading a numeric property other than `customer_id` is unaffected by the
injection. -/
theorem getNum_validatedOf (cid : String) (v0 : ValidatedMap) (k : String)
    (hk : k ≠ "customer_id") : getNum (validatedOf cid v0) k = getNum v0 k := by
  unfold getNum
  rw [lookup_validatedOf_ne cid v0 k hk]

/-- Reading a string property other than `customer_id` is unaffected by the
injection. -/
theorem getStr_validatedOf (cid : String) (v0 : ValidatedMap) (k : String)
    (hk : k ≠ "customer_id") : getStr (validatedOf cid v0) k = getStr v0 k := by
  unfold getStr
  rw [lookup_validatedOf_ne cid v0 k hk]

/-- The select component of the list config. -/
theorem listConfigOf_select (m : ValidatedMap) :
    (listConfigOf m).select =
      if (sanitizeList (getStr m "fields") allowedStoreOrdersFields).isEmpty
      then allowedStoreOrdersFields
      else sanitizeList (getStr m "fields") allowedStoreOrdersFields := rfl

/-- The relations component of the list config. -/
theorem listConfigOf_relations (m : ValidatedMap) :
    (listConfigOf m).relations =
      if (sanitizeList (getStr m "expand") allowedStoreOrdersRelations).isEmpty
      then allowedStoreOrdersRelations
      else sanitizeList (getStr m "expand") allowedStoreOrdersRelations := rfl

/-- C1: for every request, the `customer_id` entry of the filter map passed to
`OrderService.listAndCount` equals the authenticated caller's customer id taken
from the session context, regardless of any client-supplied value for
`customer_id` in the query string: the handler's assignment fully replaces any
client-supplied value rather than merging with it. -/
theorem customer_id_filter_is_authenticated_id {α : Type} (cid : String) (query : RawQuery)
    (svc : ValidatedMap → ListConfig → List α × Nat) (call : ServiceCall) (resp : Response α)
    (hcid : cid ≠ "")
    (h : handleRequest cid query svc = .ok (call, resp)) :
    call.filter.lookup "customer_id" = some (.str cid) := by
  cases hv : validator query with
  | error e =>
    rw [handleRequest_error cid query svc e hv] at h
    exact absurd h (by simp)
  | ok v0 =>
    obtain ⟨hc, -⟩ := handleRequest_ok_inv cid query svc v0 call resp hv h
    subst hc
    rw [serviceCall_lookup_customer cid v0, if_neg hcid]

/-- Witness for C1 at a request whose query string itself tries to set
`customer_id`. -/
theorem customer_id_filter_is_authenticated_id_witness :
    ("cus_1" : String) ≠ "" ∧
      List.lookup "customer_id" [("customer_id", FilterValue.str "cus_1")] =
        some (FilterValue.str "cus_1") :=
  ⟨by decide,
    customer_id_filter_is_authenticated_id "cus_1"
      [("customer_id", RawField.str "attacker")] unitSvc
      { filter := [("customer_id", FilterValue.str "cus_1")],
        config := { select := allowedStoreOrdersFields,
                    relations := allowedStoreOrdersRelations,
                    skip := 0, take := 10, order := [("created_at", "DESC")] } }
      { orders := [], count := 0, offset := 0, limit := 10 }
      (by decide) rfl⟩

/-- C9 (implicit): if the authenticated customer id is falsy (the empty
string), `_.pickBy(. , identity)` removes the injected `customer_id` key, so the
query passed to `OrderService.listAndCount` is not scoped to any customer. -/
theorem falsy_customer_id_unscoped {α : Type} (query : RawQuery)
    (svc : ValidatedMap → ListConfig → List α × Nat) (call : ServiceCall) (resp : Response α)
    (h : handleRequest "" query svc = .ok (call, resp)) :
    call.filter.lookup "customer_id" = none := by
  cases hv : validator query with
  | error e =>
    rw [handleRequest_error "" query svc e hv] at h
    exact absurd h (by simp)
  | ok v0 =>
    obtain ⟨hc, -⟩ := handleRequest_ok_inv "" query svc v0 call resp hv h
    subst hc
    rw [serviceCall_lookup_customer "" v0, if_pos rfl]

/-- Witness for C9 at a concrete request carrying an email filter. -/
theorem falsy_customer_id_unscoped_witness :
    List.lookup "customer_id" [("email", FilterValue.str "a@b.c")] = none :=
  falsy_customer_id_unscoped [("email", RawField.str "a@b.c")] unitSvc
    { filter := [("email", FilterValue.str "a@b.c")],
      config := { select := allowedStoreOrdersFields,
                  relations := allowedStoreOrdersRelations,
                  skip := 0, take := 10, order := [("created_at", "DESC")] } }
    { orders := [], count := 0, offset := 0, limit := 10 } rfl

/-- C4: the filter map passed to `OrderService.listAndCount` never contains the
four pagination/projection control keys, while every other validated property
with a truthy (non-empty) value is included unchanged. -/
theorem filter_omits_control_keys {α : Type} (cid : String) (query : RawQuery)
    (svc : ValidatedMap → ListConfig → List α × Nat) (v0 : ValidatedMap)
    (call : ServiceCall) (resp : Response α)
    (hv : validator query = .ok v0)
    (h : handleRequest cid query svc = .ok (call, resp)) :
    (call.filter.lookup "limit" = none ∧ call.filter.lookup "offset" = none ∧
     call.filter.lookup "fields" = none ∧ call.filter.lookup "expand" = none) ∧
    ∀ k v, ¬ k ∈ controlKeys → (validatedOf cid v0).lookup k = some v →
      truthy v = true → call.filter.lookup k = some v := by
  obtain ⟨hc, -⟩ := handleRequest_ok_inv cid query svc v0 call resp hv h
  subst hc
  refine ⟨⟨?_, ?_, ?_, ?_⟩, fun k v hk hlv htv => serviceCall_lookup_of cid v0 k v hk hlv htv⟩
  · exact serviceCall_lookup_control cid v0 "limit" (by decide)
  · exact serviceCall_lookup_control cid v0 "offset" (by decide)
  · exact serviceCall_lookup_control cid v0 "fields" (by decide)
  · exact serviceCall_lookup_control cid v0 "expand" (by decide)

/-- Witness for C4 at a request filtering on email. -/
theorem filter_omits_control_keys_witness :
    ((List.lookup "limit" [("customer_id", FilterValue.str "cus_1"), ("email", FilterValue.str "a@b.c")] = none ∧
      List.lookup "offset" [("customer_id", FilterValue.str "cus_1"), ("email", FilterValue.str "a@b.c")] = none ∧
      List.lookup "fields" [("customer_id", FilterValue.str "cus_1"), ("email", FilterValue.str "a@b.c")] = none ∧
      List.lookup "expand" [("customer_id", FilterValue.str "cus_1"), ("email", FilterValue.str "a@b.c")] = none) ∧
     ∀ k v, ¬ k ∈ controlKeys →
       (validatedOf "cus_1" [("limit", FilterValue.num 10), ("offset", FilterValue.num 0),
          ("email", FilterValue.str "a@b.c")]).lookup k = some v →
       truthy v = true →
       List.lookup k [("customer_id", FilterValue.str "cus_1"), ("email", FilterValue.str "a@b.c")] = some v) :=
  filter_omits_control_keys "cus_1" [("email", RawField.str "a@b.c")] unitSvc
    [("limit", FilterValue.num 10), ("offset", FilterValue.num 0), ("email", FilterValue.str "a@b.c")]
    { filter := [("customer_id", FilterValue.str "cus_1"), ("email", FilterValue.str "a@b.c")],
      config := { select := allowedStoreOrdersFields,
                  relations := allowedStoreOrdersRelations,
                  skip := 0, take := 10, order := [("created_at", "DESC")] } }
    { orders := [], count := 0, offset := 0, limit := 10 } rfl rfl

end ListOrders

namespace ListOrders

/-- C5: any key whose validated value is falsy (empty string, and absent keys in
particular) is excluded from the filter map passed to
`OrderService.listAndCount`; in particular an omitted declared parameter without
a default (such as `email`) imposes no constraint. -/
theorem falsy_filters_excluded {α : Type} (cid : String) (query : RawQuery)
    (svc : ValidatedMap → ListConfig → List α × Nat) (v0 : ValidatedMap)
    (call : ServiceCall) (resp : Response α)
    (hv : validator query = .ok v0)
    (h : handleRequest cid query svc = .ok (call, resp)) :
    (∀ k v, call.filter.lookup k = some v → truthy v = true) ∧
    (∀ k, (validatedOf cid v0).lookup k = none → call.filter.lookup k = none) ∧
    (∀ k, k ∈ declaredKeys → k ≠ "limit" → k ≠ "offset" → query.lookup k = none →
      call.filter.lookup k = none) := by
  obtain ⟨hc, -⟩ := handleRequest_ok_inv cid query svc v0 call resp hv h
  subst hc
  refine ⟨fun k v h2 => serviceCall_lookup_truthy cid v0 k v h2,
    fun k h2 => serviceCall_lookup_none cid v0 k h2,
    fun k hk hkl hko hq => ?_⟩
  have hkc : k ≠ "customer_id" := by
    simp only [declaredKeys, List.mem_cons, List.not_mem_nil, or_false] at hk
    rcases hk with rfl|rfl|rfl|rfl|rfl|rfl|rfl|rfl|rfl|rfl|rfl|rfl|rfl|rfl|rfl|rfl|rfl|rfl <;> decide
  have hd : defaultValue k = none := by
    simp only [declaredKeys, List.mem_cons, List.not_mem_nil, or_false] at hk
    rcases hk with rfl|rfl|rfl|rfl|rfl|rfl|rfl|rfl|rfl|rfl|rfl|rfl|rfl|rfl|rfl|rfl|rfl|rfl
    · exact absurd rfl hkl
    · exact absurd rfl hko
    all_goals rfl
  have hv0 : v0.lookup k = none := by
    rw [validator_ok_lookup query v0 hv k hk]
    simp [fieldResult, hq, hd]
  apply serviceCall_lookup_none
  rw [lookup_validatedOf_ne cid v0 k hkc]
  exact hv0

/-- Witness for C5 at a request with no email parameter. -/
theorem falsy_filters_excluded_witness :
    ((∀ k v, List.lookup k [("customer_id", FilterValue.str "cus_1")] = some v → truthy v = true) ∧
     (∀ k, (validatedOf "cus_1" [("limit", FilterValue.num 10), ("offset", FilterValue.num 0)]).lookup k = none →
       List.lookup k [("customer_id", FilterValue.str "cus_1")] = none) ∧
     (∀ k, k ∈ declaredKeys → k ≠ "limit" → k ≠ "offset" →
       List.lookup k ([] : RawQuery) = none →
       List.lookup k [("customer_id", FilterValue.str "cus_1")] = none)) :=
  falsy_filters_excluded "cus_1" [] unitSvc
    [("limit", FilterValue.num 10), ("offset", FilterValue.num 0)]
    { filter := [("customer_id", FilterValue.str "cus_1")],
      config := { select := allowedStoreOrdersFields,
                  relations := allowedStoreOrdersRelations,
                  skip := 0, take := 10, order := [("created_at", "DESC")] } }
    { orders := [], count := 0, offset := 0, limit := 10 } rfl rfl

/-- C7: for every valid request, the list config passed to
`OrderService.listAndCount` has `skip` equal to the validated offset, `take`
equal to the validated limit, and the fixed sort order `created_at: DESC`,
whatever the query parameters are. -/
theorem listconfig_skip_take_order {α : Type} (cid : String) (query : RawQuery)
    (svc : ValidatedMap → ListConfig → List α × Nat) (v0 : ValidatedMap)
    (call : ServiceCall) (resp : Response α)
    (hv : validator query = .ok v0)
    (h : handleRequest cid query svc = .ok (call, resp)) :
    call.config.skip = getNum v0 "offset" ∧ call.config.take = getNum v0 "limit" ∧
    call.config.order = [("created_at", "DESC")] := by
  obtain ⟨hc, -⟩ := handleRequest_ok_inv cid query svc v0 call resp hv h
  subst hc
  refine ⟨?_, ?_, rfl⟩
  · show getNum (validatedOf cid v0) "offset" = getNum v0 "offset"
    exact getNum_validatedOf cid v0 "offset" (by decide)
  · show getNum (validatedOf cid v0) "limit" = getNum v0 "limit"
    exact getNum_validatedOf cid v0 "limit" (by decide)

/-- Witness for C7 at a request with limit 7 and offset 3. -/
theorem listconfig_skip_take_order_witness :
    ({ select := allowedStoreOrdersFields, relations := allowedStoreOrdersRelations,
       skip := 3, take := 7, order := [("created_at", "DESC")] } : ListConfig).skip =
        getNum [("limit", FilterValue.num 7), ("offset", FilterValue.num 3)] "offset" ∧
    ({ select := allowedStoreOrdersFields, relations := allowedStoreOrdersRelations,
       skip := 3, take := 7, order := [("created_at", "DESC")] } : ListConfig).take =
        getNum [("limit", FilterValue.num 7), ("offset", FilterValue.num 3)] "limit" ∧
    ({ select := allowedStoreOrdersFields, relations := allowedStoreOrdersRelations,
       skip := 3, take := 7, order := [("created_at", "DESC")] } : ListConfig).order =
        [("created_at", "DESC")] :=
  listconfig_skip_take_order "cus_1"
    [("limit", RawField.num 7), ("offset", RawField.num 3)] unitSvc
    [("limit", FilterValue.num 7), ("offset", FilterValue.num 3)]
    { filter := [("customer_id", FilterValue.str "cus_1")],
      config := { select := allowedStoreOrdersFields,
                  relations := allowedStoreOrdersRelations,
                  skip := 3, take := 7, order := [("created_at", "DESC")] } }
    { orders := [], count := 0, offset := 3, limit := 7 } rfl rfl

end ListOrders

namespace ListOrders

/-- C2: `fields` and `expand` are split on commas and intersected with the
static allow-lists; allow-listed entries pass through verbatim into
`select`/`relations`, others are dropped silently, and an absent, empty, or
fully-dropped list falls back to the full allow-listed default set. -/
theorem select_relations_allowlist {α : Type} (cid : String) (query : RawQuery)
    (svc : ValidatedMap → ListConfig → List α × Nat) (v0 : ValidatedMap)
    (call : ServiceCall) (resp : Response α)
    (hv : validator query = .ok v0)
    (h : handleRequest cid query svc = .ok (call, resp)) :
    call.config.select =
      (match getStr v0 "fields" with
       | some s =>
         if s = "" ∨ (splitComma s).filter (fun f => allowedStoreOrdersFields.contains f) = []
         then allowedStoreOrdersFields
         else (splitComma s).filter (fun f => allowedStoreOrdersFields.contains f)
       | none => allowedStoreOrdersFields) ∧
    call.config.relations =
      (match getStr v0 "expand" with
       | some s =>
         if s = "" ∨ (splitComma s).filter (fun f => allowedStoreOrdersRelations.contains f) = []
         then allowedStoreOrdersRelations
         else (splitComma s).filter (fun f => allowedStoreOrdersRelations.contains f)
       | none => allowedStoreOrdersRelations) := by
  obtain ⟨hc, -⟩ := handleRequest_ok_inv cid query svc v0 call resp hv h
  subst hc
  constructor
  · show (listConfigOf (validatedOf cid v0)).select = _
    rw [listConfigOf_select, getStr_validatedOf cid v0 "fields" (by decide)]
    cases hgs : getStr v0 "fields" with
    | none => rfl
    | some s =>
      show _ =
        (if s = "" ∨ (splitComma s).filter (fun f => allowedStoreOrdersFields.contains f) = []
         then allowedStoreOrdersFields
         else (splitComma s).filter (fun f => allowedStoreOrdersFields.contains f))
      by_cases hs : s = ""
      · subst hs
        rw [if_pos (Or.inl rfl),
          if_pos (show (sanitizeList (some "") allowedStoreOrdersFields).isEmpty = true from rfl)]
      · have hsan : sanitizeList (some s) allowedStoreOrdersFields =
            (splitComma s).filter (fun f => allowedStoreOrdersFields.contains f) := by
          simp [sanitizeList, hs]
        rw [hsan]
        by_cases hf : (splitComma s).filter (fun f => allowedStoreOrdersFields.contains f) = []
        · rw [hf, if_pos (show List.isEmpty ([] : List String) = true from rfl),
            if_pos (Or.inr rfl)]
        · have hEmpty : ¬ ((splitComma s).filter
              (fun f => allowedStoreOrdersFields.contains f)).isEmpty = true := by
            rw [List.isEmpty_iff]
            exact hf
          have hOr : ¬ (s = "" ∨
              (splitComma s).filter (fun f => allowedStoreOrdersFields.contains f) = []) := by
            rintro (h1 | h2)
            · exact hs h1
            · exact hf h2
          rw [if_neg hEmpty, if_neg hOr]
  · show (listConfigOf (validatedOf cid v0)).relations = _
    rw [listConfigOf_relations, getStr_validatedOf cid v0 "expand" (by decide)]
    cases hgs : getStr v0 "expand" with
    | none => rfl
    | some s =>
      show _ =
        (if s = "" ∨ (splitComma s).filter (fun f => allowedStoreOrdersRelations.contains f) = []
         then allowedStoreOrdersRelations
         else (splitComma s).filter (fun f => allowedStoreOrdersRelations.contains f))
      by_cases hs : s = ""
      · subst hs
        rw [if_pos (Or.inl rfl),
          if_pos (show (sanitizeList (some "") allowedStoreOrdersRelations).isEmpty = true from rfl)]
      · have hsan : sanitizeList (some s) allowedStoreOrdersRelations =
            (splitComma s).filter (fun f => allowedStoreOrdersRelations.contains f) := by
          simp [sanitizeList, hs]
        rw [hsan]
        by_cases hf : (splitComma s).filter (fun f => allowedStoreOrdersRelations.contains f) = []
        · rw [hf, if_pos (show List.isEmpty ([] : List String) = true from rfl),
            if_pos (Or.inr rfl)]
        · have hEmpty : ¬ ((splitComma s).filter
              (fun f => allowedStoreOrdersRelations.contains f)).isEmpty = true := by
            rw [List.isEmpty_iff]
            exact hf
          have hOr : ¬ (s = "" ∨
              (splitComma s).filter (fun f => allowedStoreOrdersRelations.contains f) = []) := by
            rintro (h1 | h2)
            · exact hs h1
            · exact hf h2
          rw [if_neg hEmpty, if_neg hOr]

end ListOrders

namespace ListOrders

/-- Witness for C2 at a request with partially allow-listed fields and a fully
dropped expand list. -/
theorem select_relations_allowlist_witness :
    (["id", "email"] : List String) =
      (match getStr [("limit", FilterValue.num 10), ("offset", FilterValue.num 0),
          ("fields", FilterValue.str "id,email,nope"),
          ("expand", FilterValue.str "zzz")] "fields" with
       | some s =>
         if s = "" ∨ (splitComma s).filter (fun f => allowedStoreOrdersFields.contains f) = []
         then allowedStoreOrdersFields
         else (splitComma s).filter (fun f => allowedStoreOrdersFields.contains f)
       | none => allowedStoreOrdersFields) ∧
    allowedStoreOrdersRelations =
      (match getStr [("limit", FilterValue.num 10), ("offset", FilterValue.num 0),
          ("fields", FilterValue.str "id,email,nope"),
          ("expand", FilterValue.str "zzz")] "expand" with
       | some s =>
         if s = "" ∨ (splitComma s).filter (fun f => allowedStoreOrdersRelations.contains f) = []
         then allowedStoreOrdersRelations
         else (splitComma s).filter (fun f => allowedStoreOrdersRelations.contains f)
       | none => allowedStoreOrdersRelations) :=
  select_relations_allowlist "cus_1"
    [("fields", RawField.str "id,email,nope"), ("expand", RawField.str "zzz")] unitSvc
    [("limit", FilterValue.num 10), ("offset", FilterValue.num 0),
     ("fields", FilterValue.str "id,email,nope"), ("expand", FilterValue.str "zzz")]
    { filter := [("customer_id", FilterValue.str "cus_1")],
      config := { select := ["id", "email"], relations := allowedStoreOrdersRelations,
                  skip := 0, take := 10, order := [("created_at", "DESC")] } }
    { orders := [], count := 0, offset := 0, limit := 10 } rfl rfl

/-- C8: for every valid request, the JSON response is exactly
`orders`/`count` from `listAndCount` together with the validated offset and
limit, whose defaults are 0 and 10 when the query does not supply them. -/
theorem response_shape_and_defaults {α : Type} (cid : String) (query : RawQuery)
    (svc : ValidatedMap → ListConfig → List α × Nat) (v0 : ValidatedMap)
    (call : ServiceCall) (resp : Response α)
    (hv : validator query = .ok v0)
    (h : handleRequest cid query svc = .ok (call, resp)) :
    resp = { orders := (svc call.filter call.config).1,
             count := (svc call.filter call.config).2,
             offset := getNum v0 "offset", limit := getNum v0 "limit" } ∧
    (query.lookup "limit" = none → getNum v0 "limit" = 10) ∧
    (query.lookup "offset" = none → getNum v0 "offset" = 0) := by
  obtain ⟨hc, hr⟩ := handleRequest_ok_inv cid query svc v0 call resp hv h
  refine ⟨?_, ?_, ?_⟩
  · rw [hr, getNum_validatedOf cid v0 "offset" (by decide),
      getNum_validatedOf cid v0 "limit" (by decide)]
  · intro hq
    unfold getNum
    rw [validator_ok_lookup query v0 hv "limit" (by decide)]
    unfold fieldResult
    rw [hq]
    rfl
  · intro hq
    unfold getNum
    rw [validator_ok_lookup query v0 hv "offset" (by decide)]
    unfold fieldResult
    rw [hq]
    rfl

/-- Witness for C8 at a request with an empty query string. -/
theorem response_shape_and_defaults_witness :
    (({ orders := [], count := 0, offset := 0, limit := 10 } : Response Unit) =
      { orders := (unitSvc [("customer_id", FilterValue.str "cus_1")]
          { select := allowedStoreOrdersFields, relations := allowedStoreOrdersRelations,
            skip := 0, take := 10, order := [("created_at", "DESC")] }).1,
        count := (unitSvc [("customer_id", FilterValue.str "cus_1")]
          { select := allowedStoreOrdersFields, relations := allowedStoreOrdersRelations,
            skip := 0, take := 10, order := [("created_at", "DESC")] }).2,
        offset := getNum [("limit", FilterValue.num 10), ("offset", FilterValue.num 0)] "offset",
        limit := getNum [("limit", FilterValue.num 10), ("offset", FilterValue.num 0)] "limit" }) ∧
    (List.lookup "limit" ([] : RawQuery) = none →
      getNum [("limit", FilterValue.num 10), ("offset", FilterValue.num 0)] "limit" = 10) ∧
    (List.lookup "offset" ([] : RawQuery) = none →
      getNum [("limit", FilterValue.num 10), ("offset", FilterValue.num 0)] "offset" = 0) :=
  response_shape_and_defaults "cus_1" [] unitSvc
    [("limit", FilterValue.num 10), ("offset", FilterValue.num 0)]
    { filter := [("customer_id", FilterValue.str "cus_1")],
      config := { select := allowedStoreOrdersFields, relations := allowedStoreOrdersRelations,
                  skip := 0, take := 10, order := [("created_at", "DESC")] } }
    { orders := [], count := 0, offset := 0, limit := 10 } rfl rfl

/-- The enumeration attached to each of the three enum-validated parameters. -/
def enumValuesFor : String → List String
  | "status" => orderStatusValues
  | "fulfillment_status" => fulfillmentStatusValues
  | "payment_status" => paymentStatusValues
  | _ => []

/-- C6: supplying a value for `status`, `fulfillment_status` or
`payment_status` with a member outside the corresponding fixed enumeration makes
validation fail with an error naming the field, and the handler's outcome is
independent of the order service: `listAndCount` is never invoked. -/
theorem invalid_enum_rejected {α : Type} (cid : String) (query : RawQuery)
    (svc : ValidatedMap → ListConfig → List α × Nat) (k x : String) (l : List String)
    (hk : k ∈ (["status", "fulfillment_status", "payment_status"] : List String))
    (hq : query.lookup k = some (.strList l))
    (hx : x ∈ l) (hbad : ¬ x ∈ enumValuesFor k) :
    (∃ errs, handleRequest cid query svc = .error errs ∧ k ∈ errs ∧ errs ≠ []) ∧
    ∀ svc2 : ValidatedMap → ListConfig → List α × Nat,
      handleRequest cid query svc2 = handleRequest cid query svc := by
  have hrule : fieldRule k = some (.enumList (enumValuesFor k)) := by
    simp only [List.mem_cons, List.not_mem_nil, or_false] at hk
    rcases hk with rfl | rfl | rfl <;> rfl
  have hcontains : (enumValuesFor k).contains x = false := by
    cases hcont : (enumValuesFor k).contains x with
    | false => rfl
    | true => exact absurd (List.mem_of_elem_eq_true hcont) hbad
  have happly : applyRule (.enumList (enumValuesFor k)) (.strList l) = none := by
    show (if l.all (fun y => (enumValuesFor k).contains y) then some (FilterValue.strList l)
          else none) = none
    rw [if_neg]
    intro hall
    have hxc := List.all_eq_true.mp hall x hx
    rw [hcontains] at hxc
    exact Bool.false_ne_true hxc
  have herr : fieldError query k = true := by
    unfold fieldError
    rw [hq, hrule]
    show (applyRule (.enumList (enumValuesFor k)) (.strList l)).isNone = true
    rw [happly]
    rfl
  have hkdecl : k ∈ declaredKeys := by
    simp only [List.mem_cons, List.not_mem_nil, or_false] at hk
    rcases hk with rfl | rfl | rfl <;> decide
  have hmem : k ∈ declaredKeys.filter (fieldError query) :=
    List.mem_filter.mpr ⟨hkdecl, herr⟩
  have hne : declaredKeys.filter (fieldError query) ≠ [] :=
    List.ne_nil_of_mem hmem
  have hval : validator query = .error (declaredKeys.filter (fieldError query)) := by
    unfold validator
    rw [if_neg]
    rw [List.isEmpty_iff]
    exact hne
  refine ⟨⟨_, handleRequest_error cid query svc _ hval, hmem, hne⟩, fun svc2 => ?_⟩
  rw [handleRequest_error cid query svc2 _ hval, handleRequest_error cid query svc _ hval]

/-- Witness for C6 at a request supplying an unknown order status. -/
theorem invalid_enum_rejected_witness :
    (∃ errs, handleRequest "cus_1" [("status", RawField.strList ["bogus"])] unitSvc =
        .error errs ∧ "status" ∈ errs ∧ errs ≠ []) ∧
    ∀ svc2 : ValidatedMap → ListConfig → List Unit × Nat,
      handleRequest "cus_1" [("status", RawField.strList ["bogus"])] svc2 =
        handleRequest "cus_1" [("status", RawField.strList ["bogus"])] unitSvc :=
  invalid_enum_rejected "cus_1" [("status", RawField.strList ["bogus"])] unitSvc
    "status" "bogus" ["bogus"] (by decide) rfl (by decide) (by decide)

/-- Counterexample to C3 as stated: a request whose query string carries
`cancelled_at` (the spelling of the claim and of the route's OAS comment)
passes validation but produces a filter map with no cancellation constraint at
all — the declared parameter is spelled `canceled_at`. -/
theorem cancelled_at_spelling_counterexample :
    handleRequest "cus_1" [("cancelled_at", RawField.dateObj [("gt", 5)])] unitSvc =
      .ok ({ filter := [("customer_id", FilterValue.str "cus_1")],
             config := { select := allowedStoreOrdersFields,
                         relations := allowedStoreOrdersRelations,
                         skip := 0, take := 10, order := [("created_at", "DESC")] } },
           { orders := [], count := 0, offset := 0, limit := 10 }) ∧
    List.lookup "cancelled_at" [("customer_id", FilterValue.str "cus_1")] = none ∧
    List.lookup "canceled_at" [("customer_id", FilterValue.str "cus_1")] = none :=
  ⟨rfl, rfl, rfl⟩

/-- C3 as amended: the parameter is spelled `canceled_at`; supplied as a
date-range comparison object — alongside `created_at` and `updated_at` — it
passes validation and lands in the filter map as a date-range constraint. -/
theorem canceled_at_date_filter {α : Type} (cid : String) (d : List (String × Int))
    (svc : ValidatedMap → ListConfig → List α × Nat) :
    ∃ call resp,
      handleRequest cid
        [("created_at", RawField.dateObj d), ("updated_at", RawField.dateObj d),
         ("canceled_at", RawField.dateObj d)] svc = .ok (call, resp) ∧
      call.filter.lookup "canceled_at" = some (.dateCmp (toDateCmp d)) ∧
      call.filter.lookup "created_at" = some (.dateCmp (toDateCmp d)) ∧
      call.filter.lookup "updated_at" = some (.dateCmp (toDateCmp d)) := by
  refine ⟨serviceCallOf cid
      [("limit", FilterValue.num 10), ("offset", FilterValue.num 0),
       ("created_at", FilterValue.dateCmp (toDateCmp d)),
       ("updated_at", FilterValue.dateCmp (toDateCmp d)),
       ("canceled_at", FilterValue.dateCmp (toDateCmp d))], _,
    handleRequest_ok cid _ svc _ rfl, ?_, ?_, ?_⟩
  · exact serviceCall_lookup_of cid _ "canceled_at" _ (by decide) rfl rfl
  · exact serviceCall_lookup_of cid _ "created_at" _ (by decide) rfl rfl
  · exact serviceCall_lookup_of cid _ "updated_at" _ (by decide) rfl rfl

/-- C10: `limit` and `offset` are validated only as numbers — no integrality
check and no bounds — so any rational values (2.5, -3, …) pass validation, are
forwarded unchanged as `take`/`skip`, and are echoed in the response. -/
theorem limit_offset_unbounded {α : Type} (cid : String) (l o : Rat)
    (svc : ValidatedMap → ListConfig → List α × Nat) :
    ∃ call resp,
      handleRequest cid [("limit", RawField.num l), ("offset", RawField.num o)] svc =
        .ok (call, resp) ∧
      call.config.take = l ∧ call.config.skip = o ∧ resp.limit = l ∧ resp.offset = o := by
  refine ⟨serviceCallOf cid [("limit", FilterValue.num l), ("offset", FilterValue.num o)], _,
    handleRequest_ok cid _ svc _ rfl, ?_, ?_, ?_, ?_⟩
  · rfl
  · rfl
  · rfl
  · rfl

end ListOrders
